import Mathlib

/-!
Shallow embedding of `src/specreduce/build_nist_table.py`.

The script reads NIST line-list text files, parses each with
`astropy.table.Table.read(format='ascii', names=names)` falling back on any
exception to `numpy.genfromtxt(delimiter=(13, 14, 13, 16), dtype=str)` plus
`Table(data, names, dtype=('S10','f8','S15','S15'))`, vertically stacks the
per-file tables, derives `Strength` and an integer `Intensity` column from the
raw `Intensity` strings, adds a boolean `On` column, reorders columns, and
writes one CSV file.

Machine-level conventions of the embedding:
* Python strings are Lean `String` (lists of characters; the `S10`/`S15`
  byte-dtype truncations are modelled as character counts, exact for the
  ASCII data these files hold).
* `float64` wavelength values are modelled as exact rationals produced by a
  decimal parser with the syntax `[sign] digits [. digits] [e/E sign digits]`
  accepted by `float()` on the inputs that occur here.
* Python exceptions are `Except` values.  The astropy ASCII reader itself is
  not reimplemented: it enters the pipeline as a parameter `primary` whose
  result type carries an arbitrary error type `ε`, because the source wraps
  `Table.read` in a bare `except:` that triggers the fixed-width fallback on
  any exception whatsoever.
-/

/-- ASCII digit test, the character class `[0-9]` of the first regex. -/
def isAsciiDigit (c : Char) : Bool := '0' ≤ c && c ≤ '9'

/-- The character class `[a-zA-Z!@#$%^&*]` of the second regex. -/
def isLetterOrSpecial (c : Char) : Bool :=
  ('a' ≤ c && c ≤ 'z') || ('A' ≤ c && c ≤ 'Z') ||
  c == '!' || c == '@' || c == '#' || c == '$' ||
  c == '%' || c == '^' || c == '&' || c == '*'

/-- `re.sub('[0-9]+', '', s)`: delete every ASCII digit from `s`. -/
def removeDigits (s : String) : String :=
  ⟨s.data.filter (fun c => !isAsciiDigit c)⟩

/-- `re.sub('[a-zA-Z!@#$%^&*]', '', s)`: delete letters and the listed
special characters from `s`. -/
def removeClass (s : String) : String :=
  ⟨s.data.filter (fun c => !isLetterOrSpecial c)⟩

/-- The whitespace characters stripped by Python `str.strip()` (ASCII ones;
the data files contain no exotic Unicode whitespace). -/
def isPySpace (c : Char) : Bool :=
  c == ' ' || c == '\t' || c == '\n' || c == '\r' || c == '\x0b' || c == '\x0c'

/-- Python `str.strip()`: drop leading and trailing whitespace. -/
def pyStrip (s : String) : String :=
  ⟨((s.data.dropWhile isPySpace).reverse.dropWhile isPySpace).reverse⟩

/-- Value of a list of ASCII digit characters read in base 10. -/
def digitsVal (cs : List Char) : Nat :=
  cs.foldl (fun a c => 10 * a + (c.toNat - 48)) 0

/-- A non-empty all-digit character list, else `none`. -/
def parseIntDigits (cs : List Char) : Option Nat :=
  if !cs.isEmpty && cs.all isAsciiDigit then some (digitsVal cs) else none

/-- Python `int(s)` on an already-stripped string: optional sign followed by
at least one digit (numpy's string-to-int conversion applies `int` to each
element; underscore separators and non-ASCII digits do not occur in this
data and are not modelled). -/
def parseInt (s : String) : Option Int :=
  match s.data with
  | '+' :: rest => (parseIntDigits rest).map (fun n => (n : Int))
  | '-' :: rest => (parseIntDigits rest).map (fun n => -(n : Int))
  | cs => (parseIntDigits cs).map (fun n => (n : Int))

/-- Leading run of ASCII digits and the remainder. -/
def takeDigits : List Char → List Char × List Char
  | [] => ([], [])
  | c :: rest =>
    if isAsciiDigit c then
      let p := takeDigits rest
      (c :: p.1, p.2)
    else ([], c :: rest)

/-- Exponent tail of a float literal: optional sign then a non-empty digit
run, consuming the whole remainder. -/
def parseExpTail (cs : List Char) : Option Int :=
  match cs with
  | '+' :: rest => (parseIntDigits rest).map (fun n => (n : Int))
  | '-' :: rest => (parseIntDigits rest).map (fun n => -(n : Int))
  | _ => (parseIntDigits cs).map (fun n => (n : Int))

/-- An IEEE `float64` as the exact decimal the converter read: the value
`mantissa * 10 ^ exp10`.  The line lists hold short decimals, which
`float64` represents faithfully enough that no claim depends on rounding;
keeping the unreduced decimal keeps every definition kernel-computable. -/
structure PyFloat where
  mantissa : Int
  exp10 : Int
deriving Repr, DecidableEq

/-- Python `float(s)` restricted to the decimal literals occurring in the
line lists: surrounding whitespace is stripped, then
`[sign] digits [. digits] [e/E sign digits]` with at least one mantissa
digit (`inf`/`nan` literals do not occur and are not modelled). -/
def parseFloat (s : String) : Option PyFloat :=
  let cs := (pyStrip s).data
  let signAndRest : Int × List Char :=
    match cs with
    | '-' :: rest => (-1, rest)
    | '+' :: rest => (1, rest)
    | _ => (1, cs)
  let sgn := signAndRest.1
  let p1 := takeDigits signAndRest.2
  let ip := p1.1
  let afterInt := p1.2
  let fracAndRest : List Char × List Char :=
    match afterInt with
    | '.' :: rest => takeDigits rest
    | _ => ([], afterInt)
  let fp := fracAndRest.1
  let afterFrac := fracAndRest.2
  if ip.isEmpty && fp.isEmpty then none
  else
    let mant : Int := sgn * (digitsVal (ip ++ fp) : Int)
    match afterFrac with
    | [] => some ⟨mant, -(fp.length : Int)⟩
    | 'e' :: rest =>
      (parseExpTail rest).map (fun e => ⟨mant, e - (fp.length : Int)⟩)
    | 'E' :: rest =>
      (parseExpTail rest).map (fun e => ⟨mant, e - (fp.length : Int)⟩)
    | _ => none

/-- A cell of an astropy table: the dtypes that occur in this pipeline. -/
inductive Value
  | vStr (s : String)
  | vFloat (x : PyFloat)
  | vInt (n : Int)
  | vBool (b : Bool)
deriving Repr, DecidableEq

/-- An astropy `Table`: named columns over a list of rows; row `i`, column
`j` is `rows[i][j]` and `colNames[j]` is its name. -/
structure ATable where
  colNames : List String
  rows : List (List Value)
deriving Repr, DecidableEq

/-- Errors raised by the pipeline (Python exceptions). -/
inductive Err
  | noValuesToStack
  | schemaMismatch
  | missingColumn (name : String)
  | typeError
  | badInt (s : String)
  | badFloat (s : String)
deriving Repr, DecidableEq

/-- The four raw column names passed as `names` in `build_table`. -/
def rawNames : List String := ["Intensity", "Wavelength", "Element", "Reference"]

/-- The final column order `neworder` in `build_table`. -/
def finalNames : List String :=
  ["Element", "Wavelength", "Intensity", "Strength", "On", "Reference"]

/-- `table.add_column(Column(col), name=name)`: append a column at the end
(astropy's default insertion index). -/
def add_column (t : ATable) (col : List Value) (name : String) : ATable :=
  ⟨t.colNames ++ [name], List.zipWith (fun r v => r ++ [v]) t.rows col⟩

/-- `table[name]`: the column of values under `name`, a `KeyError` if the
name is absent.  Out-of-range cells default to an empty string; the source
only ever builds rectangular tables, and theorems carry the row-shape
hypothesis where it matters. -/
def getCol (t : ATable) (name : String) : Except Err (List Value) :=
  match t.colNames.findIdx? (fun n => n == name) with
  | some i => Except.ok (t.rows.map (fun r => r.getD i (Value.vStr "")))
  | none => Except.error (Err.missingColumn name)

/-- `table.remove_column(name)`. -/
def remove_column (t : ATable) (name : String) : Except Err ATable :=
  match t.colNames.findIdx? (fun n => n == name) with
  | some i => Except.ok ⟨t.colNames.eraseIdx i, t.rows.map (fun r => r.eraseIdx i)⟩
  | none => Except.error (Err.missingColumn name)

/-- `table[neworder]`: project the table onto the listed columns in the
listed order. -/
def selectCols (t : ATable) (names : List String) : Except Err ATable :=
  match names.mapM (fun n => t.colNames.findIdx? (fun m => m == n)) with
  | some idxs =>
    Except.ok ⟨names, t.rows.map (fun r => idxs.map (fun i => r.getD i (Value.vStr "")))⟩
  | none => Except.error Err.schemaMismatch

/-- `astropy.table.vstack(tabs)` for the identical-schema case used here:
an empty list raises (`no values provided to stack`), tables whose column
names differ from the first's raise, otherwise rows are concatenated in
list order. -/
def vstack (ts : List ATable) : Except Err ATable :=
  match ts with
  | [] => Except.error Err.noValuesToStack
  | t :: rest =>
    if rest.all (fun u => u.colNames == t.colNames) then
      Except.ok ⟨t.colNames, (ts.map ATable.rows).flatten⟩
    else Except.error Err.schemaMismatch

/-- `re.sub` demands a `str` argument; any other cell dtype raises
`TypeError`. -/
def asStr : Value → Except Err String
  | Value.vStr s => Except.ok s
  | _ => Except.error Err.typeError

/-- `Column(intensity_wo_strength, dtype=int)`: convert every string to an
integer, raising on the first string that is not a valid integer literal. -/
def intColumn (ss : List String) : Except Err (List Int) :=
  ss.mapM (fun s =>
    match parseInt s with
    | some n => Except.ok n
    | none => Except.error (Err.badInt s))

/-- The column-transformation half of `build_table` (source lines 45-72):
add the `On` column, derive `Strength` and the integer `Intensity` from the
raw `Intensity` strings (both regexes applied to the original string),
remove the raw column, and reorder to `neworder`. -/
def transform (t : ATable) : Except Err ATable :=
  let t1 := add_column t (List.replicate t.rows.length (Value.vBool true)) "On"
  match getCol t1 "Intensity" with
  | Except.error e => Except.error e
  | Except.ok intensity =>
    match intensity.mapM (fun v => (asStr v).map (fun s => Value.vStr (pyStrip (removeDigits s)))) with
    | Except.error e => Except.error e
    | Except.ok strengthCol =>
      let t2 := add_column t1 strengthCol "Strength"
      match intensity.mapM (fun v => (asStr v).map (fun s => pyStrip (removeClass s))) with
      | Except.error e => Except.error e
      | Except.ok intensity_wo_strength =>
        match remove_column t2 "Intensity" with
        | Except.error e => Except.error e
        | Except.ok t3 =>
          match intColumn intensity_wo_strength with
          | Except.error e => Except.error e
          | Except.ok ints =>
            let t4 := add_column t3 (ints.map Value.vInt) "Intensity"
            selectCols t4 finalNames

/-- Substring of `s` from character index `a` (inclusive) to `b`
(exclusive), Python's forgiving `s[a:b]` slice. -/
def sliceStr (s : String) (a b : Nat) : String :=
  ⟨(s.data.drop a).take (b - a)⟩

/-- First `n` characters of `s`: the effect of a too-narrow `S<n>` numpy
dtype on an ASCII string. -/
def strTake (s : String) (n : Nat) : String :=
  ⟨s.data.take n⟩

/-- Split a character stream at newline characters, Python
`content.split`; lines carry no trailing newline. -/
def splitLinesChar : List Char → List (List Char)
  | [] => [[]]
  | c :: rest =>
    if c = '\n' then [] :: splitLinesChar rest
    else
      match splitLinesChar rest with
      | [] => [[c]]
      | l :: ls => (c :: l) :: ls

/-- Line preprocessing of `numpy.genfromtxt`: each line is cut at the
default comment character `#`, and lines that are empty after that cut are
skipped. -/
def dataLines (content : String) : List String :=
  (((splitLinesChar content.data).map
      (fun l => l.takeWhile (fun c => c != '#'))).filter
    (fun l => !l.isEmpty)).map (fun l => ⟨l⟩)

/-- `np.genfromtxt(line_list, delimiter=(13, 14, 13, 16), dtype=str)`:
slice every retained line at the cumulative offsets 0, 13, 27, 40, 56 into
four text fields. -/
def genfromtxt_fixed (content : String) : List (List String) :=
  (dataLines content).map (fun line =>
    [sliceStr line 0 13, sliceStr line 13 27, sliceStr line 27 40, sliceStr line 40 56])

/-- `Table(data, names=names, dtype=('S10', 'f8', 'S15', 'S15'))`: the
sliced text rows are stored under the raw names, the `Intensity` text
truncated to the 10-byte dtype, `Wavelength` converted to a float (raising
on failure), `Element` and `Reference` text truncated to 15 bytes. -/
def table_dtype (rows : List (List String)) : Except Err ATable :=
  match rows.mapM (fun r =>
    match parseFloat (r.getD 1 "") with
    | some q =>
      Except.ok [Value.vStr (strTake (r.getD 0 "") 10), Value.vFloat q,
                 Value.vStr (strTake (r.getD 2 "") 15), Value.vStr (strTake (r.getD 3 "") 15)]
    | none => Except.error (Err.badFloat (r.getD 1 ""))) with
  | Except.ok vrows => Except.ok ⟨rawNames, vrows⟩
  | Except.error e => Except.error e

/-- The whole fixed-width fallback branch of the per-file loop. -/
def fixedWidthTable (content : String) : Except Err ATable :=
  table_dtype (genfromtxt_fixed content)

/-- One iteration of the per-file loop: `Table.read(..., names=names)` is
attempted first — its result arrives here as `primaryResult`, whose error
type is arbitrary because the bare `except:` catches every exception — and
on any failure the same file is re-parsed by fixed-width slicing.  A
successful primary parse carries the four `names` passed to `Table.read`. -/
def readOne {ε : Type} (primaryResult : Except ε (List (List Value))) (content : String) :
    Except Err ATable :=
  match primaryResult with
  | Except.ok rows => Except.ok ⟨rawNames, rows⟩
  | Except.error _ => fixedWidthTable content

/-- Discovery: `glob.glob('data/line_lists/NIST/*.txt')` over a directory
modelled as a list of (file name, file content) pairs; glob order is kept
as list order. -/
def glob_txt (dir : List (String × String)) : List (String × String) :=
  dir.filter (fun f =>
    match f.1.data.reverse with
    | 't' :: 'x' :: 't' :: '.' :: _ => true
    | _ => false)

/-- The parsing loop of `build_table`: read every discovered file, stopping
at the first file whose fallback parse also fails. -/
def read_stage {ε : Type} (primary : String → Except ε (List (List Value)))
    (dir : List (String × String)) : Except Err (List ATable) :=
  (glob_txt dir).mapM (fun f => readOne (primary f.2) f.2)

/-- `build_table()`: discover, parse each file, stack, transform. -/
def build_table {ε : Type} (primary : String → Except ε (List (List Value)))
    (dir : List (String × String)) : Except Err ATable :=
  match read_stage primary dir with
  | Except.error e => Except.error e
  | Except.ok tabs =>
    match vstack tabs with
    | Except.error e => Except.error e
    | Except.ok master => transform master

/-- Quoting rule of the csv writer: a field containing a delimiter, quote
or newline is quoted, with inner quotes doubled. -/
def csvNeedsQuote (s : String) : Bool :=
  s.data.any (fun c => c == ',' || c == '"' || c == '\n' || c == '\r')

/-- Double every quote character in `s`. -/
def csvEscape (s : String) : String :=
  ⟨s.data.foldr (fun c acc => if c == '"' then '"' :: '"' :: acc else c :: acc) []⟩

/-- One CSV field with standard quoting. -/
def csvField (s : String) : String :=
  if csvNeedsQuote s then "\"" ++ csvEscape s ++ "\"" else s

/-- Serialization of one cell.  Booleans print as numpy booleans do
(`True`/`False`); the rendering of float cells is abstracted by the
mantissa/exponent fields, no claim depends on it. -/
def valueToCsv : Value → String
  | Value.vStr s => csvField s
  | Value.vFloat x => toString x.mantissa ++ "e" ++ toString x.exp10
  | Value.vInt n => toString n
  | Value.vBool b => if b then "True" else "False"

/-- `table.write(path, format='csv')` as lines of text: the header row of
column names followed by one line per row. -/
def table_write (t : ATable) : List String :=
  String.intercalate "," (t.colNames.map csvField) ::
    t.rows.map (fun r => String.intercalate "," (r.map valueToCsv))

/-- The file content produced by the csv writer. -/
def render_csv (t : ATable) : String :=
  String.intercalate "\n" (table_write t) ++ "\n"

/-- A file system: an association of paths to file contents. -/
def FS : Type := List (String × String)

/-- Content at a path, if a file exists there. -/
def readFS (fs : FS) (p : String) : Option String :=
  (fs.find? (fun q => q.1 == p)).map (fun q => q.2)

/-- Store `c` at path `p`, replacing any existing file there. -/
def setFile (fs : FS) (p c : String) : FS :=
  (p, c) :: fs.filter (fun q => q.1 != p)

/-- `os.path.join(location, table_name)` for the paths used here. -/
def os_path_join (a b : String) : String :=
  if a == "" then b
  else
    match a.data.reverse with
    | '/' :: _ => a ++ b
    | _ => a ++ "/" ++ b

/-- Modelled from the spec: the on-disk effect of
`table.write(os.path.join(location, table_name), format='csv')` — the
astropy writer is not part of this repository's sources; per the spec it
serializes the table to CSV at that path and overwrites any existing file
at that path without warning and without error. -/
def save_table (location table_name : String) (t : ATable) (fs : FS) : FS :=
  setFile fs (os_path_join location table_name) (render_csv t)

/-- The fixed output path of `main()`. -/
def outPath : String := os_path_join "data/line_lists/NIST/" "NIST_combined.csv"

/-- `main()`: build the table, then save it.  An exception in
`build_table` propagates and `save_table` never runs, leaving the file
system untouched. -/
def mainRun {ε : Type} (primary : String → Except ε (List (List Value)))
    (dir : List (String × String)) (fs : FS) : FS × Except Err Unit :=
  match build_table primary dir with
  | Except.error e => (fs, Except.error e)
  | Except.ok t =>
    (save_table "data/line_lists/NIST/" "NIST_combined.csv" t fs, Except.ok ())

/-- The string carried by a string-typed cell. -/
def valString : Value → String
  | Value.vStr s => s
  | _ => ""

/-- The raw `Intensity` cell of a pre-transform row, as the string the
regexes receive. -/
def rawIntensity (r : List Value) : String :=
  valString (r.getD 0 (Value.vStr ""))

/-- The `Strength` value derived from a raw row. -/
def strengthOf (r : List Value) : String :=
  pyStrip (removeDigits (rawIntensity r))

/-- The stripped digit string from which the final integer `Intensity` is
parsed. -/
def strippedOf (r : List Value) : String :=
  pyStrip (removeClass (rawIntensity r))

/-- Shape of a row as `Table.read(..., names=names)` delivers it to the
transform: four cells whose `Intensity` cell is a string. -/
def isRawShape (r : List Value) : Bool :=
  match r with
  | [Value.vStr _, _, _, _] => true
  | _ => false

/-- The row the transform produces from a raw row whose stripped intensity
parses to `n`. -/
def finalRowOf (r : List Value) (n : Int) : List Value :=
  [r.getD 2 (Value.vStr ""), r.getD 1 (Value.vStr ""), Value.vInt n,
   Value.vStr (strengthOf r), Value.vBool true, r.getD 3 (Value.vStr "")]

theorem zipWith_snoc_replicate (rows : List (List Value)) (x : Value) :
    List.zipWith (fun r v => r ++ [v]) rows (List.replicate rows.length x) =
      rows.map (fun r => r ++ [x]) := by
  induction rows with
  | nil => rfl
  | cons r rs ih => simp [List.replicate_succ, ih]

theorem zipWith_map_both {α β γ δ : Type} (f : β → γ → δ) (u : α → β) (v : α → γ)
    (l : List α) :
    List.zipWith f (l.map u) (l.map v) = l.map (fun a => f (u a) (v a)) := by
  induction l with
  | nil => rfl
  | cons a t ih => simp [ih]

theorem exceptMapM_cons {α β : Type} (f : α → Except Err β) (a : α) (l : List α) :
    (a :: l).mapM f =
      (f a).bind (fun b => (l.mapM f).bind (fun bs => Except.ok (b :: bs))) := by
  rw [← List.mapM'_eq_mapM, ← List.mapM'_eq_mapM]
  rfl

theorem mapM_ok {α β : Type} (f : α → Except Err β) (g : α → β) (l : List α)
    (h : ∀ a ∈ l, f a = Except.ok (g a)) : l.mapM f = Except.ok (l.map g) := by
  induction l with
  | nil => rfl
  | cons a t ih =>
    have ha := h a (List.mem_cons_self a t)
    have ht := ih (fun b hb => h b (List.mem_cons_of_mem a hb))
    rw [exceptMapM_cons, ha, ht]
    rfl

theorem intColumn_ok_of (ss : List String) (h : ∀ s ∈ ss, (parseInt s).isSome) :
    intColumn ss = Except.ok (ss.map (fun s => (parseInt s).getD 0)) := by
  unfold intColumn
  refine mapM_ok _ _ _ (fun s hs => ?_)
  rcases Option.isSome_iff_exists.mp (h s hs) with ⟨n, hn⟩
  simp [hn]

theorem intColumn_error_of (ss : List String) (h : ∃ s ∈ ss, parseInt s = none) :
    ∃ e, intColumn ss = Except.error e := by
  unfold intColumn
  induction ss with
  | nil => simp at h
  | cons s t ih =>
    rcases h with ⟨s0, hs0, hnone⟩
    rcases List.mem_cons.mp hs0 with h1 | h1
    · subst h1
      refine ⟨Err.badInt s0, ?_⟩
      rw [exceptMapM_cons, hnone]
      rfl
    · by_cases hp : parseInt s = none
      · refine ⟨Err.badInt s, ?_⟩
        rw [exceptMapM_cons, hp]
        rfl
      · rcases Option.ne_none_iff_exists.mp hp with ⟨n, hn⟩
        rcases ih ⟨s0, h1, hnone⟩ with ⟨e, he⟩
        refine ⟨e, ?_⟩
        rw [exceptMapM_cons, ← hn, he]
        rfl

theorem isRawShape_elim (r : List Value) (h : isRawShape r = true) :
    ∃ s v2 v3 v4, r = [Value.vStr s, v2, v3, v4] := by
  unfold isRawShape at h
  split at h
  · next s v2 v3 v4 => exact ⟨s, v2, v3, v4, rfl⟩
  · exact absurd h (by simp)

theorem zipWith_map_right_same {α β γ : Type} (f : α → β → γ) (q : α → β) (l : List α) :
    List.zipWith f l (l.map q) = l.map (fun a => f a (q a)) := by
  induction l with
  | nil => rfl
  | cons a t ih => simp [ih]

theorem intColumn_cons (s : String) (t : List String) :
    intColumn (s :: t) =
      (match parseInt s with
       | some n => Except.ok n
       | none => Except.error (Err.badInt s)).bind
        (fun n => (intColumn t).bind (fun ns => Except.ok (n :: ns))) := by
  unfold intColumn
  exact exceptMapM_cons _ s t

theorem intColumn_ok_inv (ss : List String) (ns : List Int)
    (h : intColumn ss = Except.ok ns) :
    ns = ss.map (fun s => (parseInt s).getD 0) := by
  induction ss generalizing ns with
  | nil => exact (Except.ok.inj h).symm
  | cons s t ih =>
    rw [intColumn_cons] at h
    cases hp : parseInt s with
    | none =>
      rw [hp] at h
      exact absurd h (by simp [Except.bind])
    | some n =>
      rw [hp] at h
      cases hmt : intColumn t with
      | error e =>
        rw [hmt] at h
        exact absurd h (by simp [Except.bind])
      | ok ms =>
        rw [hmt] at h
        have hbind : Except.ok (n :: ms) = (Except.ok ns : Except Err (List Int)) := h
        rw [← Except.ok.inj hbind]
        simp [ih ms hmt, hp]

theorem selectCols_final (rows4 : List (List Value)) :
    selectCols ⟨["Wavelength", "Element", "Reference", "On", "Strength"] ++ ["Intensity"],
        rows4⟩ finalNames =
      Except.ok ⟨finalNames, rows4.map (fun r =>
        [r.getD 1 (Value.vStr ""), r.getD 0 (Value.vStr ""), r.getD 5 (Value.vStr ""),
         r.getD 4 (Value.vStr ""), r.getD 3 (Value.vStr ""), r.getD 2 (Value.vStr "")])⟩ := rfl

theorem zipWith_map_map {α β γ δ μ : Type} (f : γ → δ → μ) (g : α → γ) (h : β → δ)
    (l : List α) (l' : List β) :
    List.zipWith f (l.map g) (l'.map h) = List.zipWith (fun a b => f (g a) (h b)) l l' := by
  induction l generalizing l' with
  | nil => rfl
  | cons a t ih =>
    cases l' with
    | nil => rfl
    | cons b tb => simp [ih]

theorem map_zipWith_comp {α β γ δ : Type} (g : γ → δ) (f : α → β → γ)
    (l : List α) (l' : List β) :
    (List.zipWith f l l').map g = List.zipWith (fun a b => g (f a b)) l l' := by
  induction l generalizing l' with
  | nil => rfl
  | cons a t ih =>
    cases l' with
    | nil => rfl
    | cons b tb => simp [ih]

theorem zipWith_congr_mem {α β γ : Type} (f g : α → β → γ) (l : List α) (l' : List β)
    (h : ∀ a ∈ l, ∀ b, f a b = g a b) :
    List.zipWith f l l' = List.zipWith g l l' := by
  induction l generalizing l' with
  | nil => rfl
  | cons a t ih =>
    cases l' with
    | nil => rfl
    | cons b tb =>
      simp only [List.zipWith_cons_cons, h a (List.mem_cons_self a t) b]
      exact congrArg _ (ih tb (fun x hx => h x (List.mem_cons_of_mem a hx)))

theorem transform_eq_of_shape (rows : List (List Value))
    (hs : ∀ r ∈ rows, isRawShape r = true) :
    transform ⟨rawNames, rows⟩ =
      match intColumn (rows.map strippedOf) with
      | Except.ok ns => Except.ok ⟨finalNames, List.zipWith finalRowOf rows ns⟩
      | Except.error e => Except.error e := by
  have hOn := zipWith_snoc_replicate rows (Value.vBool true)
  have hget : getCol ⟨rawNames ++ ["On"], rows.map (fun r => r ++ [Value.vBool true])⟩
      "Intensity" = Except.ok (rows.map (fun r => Value.vStr (rawIntensity r))) := by
    have hbase : ∀ rs : List (List Value),
        getCol ⟨rawNames ++ ["On"], rs⟩ "Intensity" =
          Except.ok (rs.map (fun r => r.getD 0 (Value.vStr ""))) := fun _ => rfl
    rw [hbase, List.map_map]
    refine congrArg Except.ok (List.map_congr_left (fun r hr => ?_))
    rcases isRawShape_elim r (hs r hr) with ⟨s, v2, v3, v4, rfl⟩
    rfl
  have hmem1 : ∀ a ∈ rows.map (fun r => Value.vStr (rawIntensity r)),
      (fun v => (asStr v).map (fun s => Value.vStr (pyStrip (removeDigits s)))) a =
        Except.ok ((fun v => Value.vStr (pyStrip (removeDigits (valString v)))) a) := by
    intro a ha
    rcases List.mem_map.mp ha with ⟨r, _, rfl⟩
    rfl
  have hstr : (rows.map (fun r => Value.vStr (rawIntensity r))).mapM
      (fun v => (asStr v).map (fun s => Value.vStr (pyStrip (removeDigits s)))) =
      Except.ok (rows.map (fun r => Value.vStr (strengthOf r))) := by
    rw [mapM_ok _ _ _ hmem1, List.map_map]
    rfl
  have hmem2 : ∀ a ∈ rows.map (fun r => Value.vStr (rawIntensity r)),
      (fun v => (asStr v).map (fun s => pyStrip (removeClass s))) a =
        Except.ok ((fun v => pyStrip (removeClass (valString v))) a) := by
    intro a ha
    rcases List.mem_map.mp ha with ⟨r, _, rfl⟩
    rfl
  have hwo : (rows.map (fun r => Value.vStr (rawIntensity r))).mapM
      (fun v => (asStr v).map (fun s => pyStrip (removeClass s))) =
      Except.ok (rows.map strippedOf) := by
    rw [mapM_ok _ _ _ hmem2, List.map_map]
    rfl
  have hzip2 := zipWith_map_both (fun r v => r ++ [v])
    (fun r => r ++ [Value.vBool true]) (fun r => Value.vStr (strengthOf r)) rows
  have hrem : ∀ rs : List (List Value),
      remove_column ⟨(rawNames ++ ["On"]) ++ ["Strength"], rs⟩ "Intensity" =
        Except.ok ⟨["Wavelength", "Element", "Reference", "On", "Strength"],
          rs.map (fun r => r.eraseIdx 0)⟩ := fun _ => rfl
  unfold transform add_column
  simp only [hOn, hget, hstr, hwo, hzip2, hrem, List.map_map]
  cases intColumn (rows.map strippedOf) with
  | error e => rfl
  | ok ns =>
    show selectCols ⟨["Wavelength", "Element", "Reference", "On", "Strength"] ++ ["Intensity"],
        List.zipWith (fun r v => r ++ [v])
          (rows.map (fun a => (a ++ [Value.vBool true] ++ [Value.vStr (strengthOf a)]).eraseIdx 0))
          (ns.map Value.vInt)⟩ finalNames =
      Except.ok ⟨finalNames, List.zipWith finalRowOf rows ns⟩
    rw [zipWith_map_map, selectCols_final, map_zipWith_comp]
    refine congrArg Except.ok (congrArg (ATable.mk finalNames)
      (zipWith_congr_mem _ _ _ _ (fun r hr n => ?_)))
    rcases isRawShape_elim r (hs r hr) with ⟨s, v2, v3, v4, rfl⟩
    rfl

theorem transform_ok_of_shape (rows : List (List Value))
    (hs : ∀ r ∈ rows, isRawShape r = true)
    (hall : ∀ r ∈ rows, (parseInt (strippedOf r)).isSome) :
    transform ⟨rawNames, rows⟩ =
      Except.ok ⟨finalNames,
        rows.map (fun r => finalRowOf r ((parseInt (strippedOf r)).getD 0))⟩ := by
  rw [transform_eq_of_shape rows hs]
  have hmem : ∀ s ∈ rows.map strippedOf, (parseInt s).isSome := by
    intro s hsm
    rcases List.mem_map.mp hsm with ⟨r, hr, rfl⟩
    exact hall r hr
  rw [intColumn_ok_of _ hmem]
  show (Except.ok (ATable.mk finalNames
      (List.zipWith finalRowOf rows
        ((rows.map strippedOf).map (fun s => (parseInt s).getD 0)))) : Except Err ATable) =
    Except.ok (ATable.mk finalNames
      (rows.map (fun r => finalRowOf r ((parseInt (strippedOf r)).getD 0))))
  rw [List.map_map, zipWith_map_right_same]
  rfl

theorem transform_error_of_shape (rows : List (List Value))
    (hs : ∀ r ∈ rows, isRawShape r = true)
    (hbad : ∃ r ∈ rows, parseInt (strippedOf r) = none) :
    ∃ e, transform ⟨rawNames, rows⟩ = Except.error e := by
  rw [transform_eq_of_shape rows hs]
  rcases hbad with ⟨r, hr, hnone⟩
  rcases intColumn_error_of (rows.map strippedOf)
    ⟨strippedOf r, List.mem_map_of_mem strippedOf hr, hnone⟩ with ⟨e, he⟩
  refine ⟨e, ?_⟩
  rw [he]

theorem mem_of_mem_pyStrip (c : Char) (s : String) (h : c ∈ (pyStrip s).data) :
    c ∈ s.data := by
  unfold pyStrip at h
  have h1 : c ∈ (s.data.dropWhile isPySpace).reverse.dropWhile isPySpace :=
    List.mem_reverse.mp h
  have h2 : c ∈ (s.data.dropWhile isPySpace).reverse :=
    (List.dropWhile_sublist _).mem h1
  have h3 : c ∈ s.data.dropWhile isPySpace := List.mem_reverse.mp h2
  exact (List.dropWhile_sublist _).mem h3

theorem strength_has_no_digit (s : String) (c : Char)
    (h : c ∈ (pyStrip (removeDigits s)).data) : isAsciiDigit c = false := by
  have h1 : c ∈ (removeDigits s).data := mem_of_mem_pyStrip c _ h
  have h2 : c ∈ s.data.filter (fun c => !isAsciiDigit c) := h1
  have h3 := (List.mem_filter.mp h2).2
  simpa using h3

theorem stripped_has_no_class (s : String) (c : Char)
    (h : c ∈ (pyStrip (removeClass s)).data) : isLetterOrSpecial c = false := by
  have h1 : c ∈ (removeClass s).data := mem_of_mem_pyStrip c _ h
  have h2 : c ∈ s.data.filter (fun c => !isLetterOrSpecial c) := h1
  have h3 := (List.mem_filter.mp h2).2
  simpa using h3

theorem build_table_ok_inv {ε : Type} (primary : String → Except ε (List (List Value)))
    (dir : List (String × String)) (t : ATable)
    (h : build_table primary dir = Except.ok t) :
    ∃ tabs master, read_stage primary dir = Except.ok tabs ∧
      vstack tabs = Except.ok master ∧ transform master = Except.ok t := by
  unfold build_table at h
  split at h
  · exact absurd h (by simp)
  · next tabs heq1 =>
    split at h
    · exact absurd h (by simp)
    · next master heq2 => exact ⟨tabs, master, heq1, heq2, h⟩

theorem mainRun_of_error {ε : Type} (primary : String → Except ε (List (List Value)))
    (dir : List (String × String)) (fs : FS) (e : Err)
    (h : build_table primary dir = Except.error e) :
    mainRun primary dir fs = (fs, Except.error e) := by
  unfold mainRun
  rw [h]

theorem mainRun_of_ok {ε : Type} (primary : String → Except ε (List (List Value)))
    (dir : List (String × String)) (fs : FS) (t : ATable)
    (h : build_table primary dir = Except.ok t) :
    mainRun primary dir fs =
      (save_table "data/line_lists/NIST/" "NIST_combined.csv" t fs, Except.ok ()) := by
  unfold mainRun
  rw [h]

theorem intColumn_ok_all (ss : List String) (ns : List Int)
    (h : intColumn ss = Except.ok ns) : ∀ s ∈ ss, (parseInt s).isSome := by
  induction ss generalizing ns with
  | nil =>
    intro s hsm
    simp at hsm
  | cons a t ih =>
    intro s hsm
    rw [intColumn_cons] at h
    cases hp : parseInt a with
    | none =>
      rw [hp] at h
      exact absurd h (by simp [Except.bind])
    | some n =>
      rw [hp] at h
      cases hmt : intColumn t with
      | error e =>
        rw [hmt] at h
        exact absurd h (by simp [Except.bind])
      | ok ms =>
        rcases List.mem_cons.mp hsm with h1 | h1
        · subst h1
          simp [hp]
        · exact ih ms hmt s h1

theorem getD_map_lt {α β : Type} (f : α → β) (l : List α) (i : Nat) (d : α) (d' : β)
    (h : i < l.length) : (l.map f).getD i d' = f (l.getD i d) := by
  induction l generalizing i with
  | nil => simp at h
  | cons a t ih =>
    cases i with
    | zero => rfl
    | succ j =>
      simp only [List.map_cons, List.getD_cons_succ]
      exact ih j (Nat.lt_of_succ_lt_succ (by simpa using h))

theorem getD_mem_of_lt {α : Type} (l : List α) (i : Nat) (d : α) (h : i < l.length) :
    l.getD i d ∈ l := by
  induction l generalizing i with
  | nil => simp at h
  | cons a t ih =>
    cases i with
    | zero => exact List.mem_cons_self a t
    | succ j =>
      simp only [List.getD_cons_succ]
      exact List.mem_cons_of_mem a (ih j (by simpa using h))

/-- C1: in a successfully transformed merged table, every row's `Strength`
cell holds the raw `Intensity` string with all ASCII digits removed and
whitespace stripped — hence it contains no digit — and every row's final
`Intensity` cell holds the integer parsed from the raw `Intensity` string
with all characters of the class `[a-zA-Z!@#$%^&*]` removed and whitespace
stripped — hence that digit string contains no character of that class. -/
theorem c1_derived_columns (rows : List (List Value)) (t : ATable)
    (hs : ∀ r ∈ rows, isRawShape r = true)
    (hok : transform ⟨rawNames, rows⟩ = Except.ok t) :
    t.rows.length = rows.length ∧
    ∀ i, i < rows.length →
      ((t.rows.getD i []).getD 3 (Value.vStr "") =
          Value.vStr (strengthOf (rows.getD i [])) ∧
        (∀ c ∈ (strengthOf (rows.getD i [])).data, isAsciiDigit c = false)) ∧
      ∃ n, parseInt (strippedOf (rows.getD i [])) = some n ∧
        (t.rows.getD i []).getD 2 (Value.vStr "") = Value.vInt n ∧
        (∀ c ∈ (strippedOf (rows.getD i [])).data, isLetterOrSpecial c = false) := by
  rw [transform_eq_of_shape rows hs] at hok
  split at hok
  · next ns heq =>
    have hall := intColumn_ok_all _ _ heq
    have hns := intColumn_ok_inv _ _ heq
    subst hns
    have ht := (Except.ok.inj hok).symm
    subst ht
    have hrows : (ATable.mk finalNames
        (List.zipWith finalRowOf rows
          ((rows.map strippedOf).map (fun s => (parseInt s).getD 0)))).rows =
        rows.map (fun r => finalRowOf r ((parseInt (strippedOf r)).getD 0)) := by
      show List.zipWith finalRowOf rows
          ((rows.map strippedOf).map (fun s => (parseInt s).getD 0)) = _
      rw [List.map_map, zipWith_map_right_same]
      rfl
    rw [hrows]
    constructor
    · simp
    · intro i hi
      have hmem : rows.getD i [] ∈ rows := getD_mem_of_lt rows i [] hi
      have hsome := hall (strippedOf (rows.getD i []))
        (List.mem_map_of_mem strippedOf hmem)
      rcases Option.isSome_iff_exists.mp hsome with ⟨n, hn⟩
      rw [getD_map_lt _ _ _ [] _ hi]
      refine ⟨⟨rfl, fun c hc => strength_has_no_digit (rawIntensity (rows.getD i [])) c hc⟩,
        n, hn, ?_, fun c hc => stripped_has_no_class (rawIntensity (rows.getD i [])) c hc⟩
      show Value.vInt ((parseInt (strippedOf (rows.getD i []))).getD 0) = Value.vInt n
      rw [hn]
      rfl
  · next e heq => exact absurd hok (by simp)

/-- A raw parsed row as the primary reader produces it, used as sample data. -/
def sampleRow : List Value :=
  [Value.vStr "10p", Value.vFloat ⟨5, 0⟩, Value.vStr "Fe", Value.vStr "Ref"]

/-- The transformed table the pipeline produces from `sampleRow`. -/
def sampleOut : ATable :=
  ⟨finalNames, [[Value.vStr "Fe", Value.vFloat ⟨5, 0⟩, Value.vInt 10, Value.vStr "p",
    Value.vBool true, Value.vStr "Ref"]]⟩

theorem c1_derived_columns_witness :
    ((Value.vStr "p" = Value.vStr (strengthOf sampleRow) ∧
      ∀ c ∈ (strengthOf sampleRow).data, isAsciiDigit c = false) ∧
    ∃ n, parseInt (strippedOf sampleRow) = some n ∧
      Value.vInt 10 = Value.vInt n ∧
      ∀ c ∈ (strippedOf sampleRow).data, isLetterOrSpecial c = false) :=
  (c1_derived_columns [sampleRow] sampleOut (by decide) rfl).2 0 (by decide)

theorem build_table_eq_transform {ε : Type} (primary : String → Except ε (List (List Value)))
    (dir : List (String × String)) (tabs : List ATable) (master : ATable)
    (hread : read_stage primary dir = Except.ok tabs)
    (hstack : vstack tabs = Except.ok master) :
    build_table primary dir = transform master := by
  unfold build_table
  rw [hread]
  show (match vstack tabs with
    | Except.error e => Except.error e
    | Except.ok master => transform master) = transform master
  rw [hstack]

/-- C2: whenever some row of the successfully stacked master table has a raw
`Intensity` string whose letter-and-special-stripped, whitespace-stripped
remainder is not a valid integer, the transform raises, `build_table`
propagates the error, and the run aborts with the file system untouched —
no output is written and no row is skipped or defaulted. -/
theorem c2_transform_error_aborts_run {ε : Type}
    (primary : String → Except ε (List (List Value)))
    (dir : List (String × String)) (fs : FS) (tabs : List ATable) (master : ATable)
    (hread : read_stage primary dir = Except.ok tabs)
    (hstack : vstack tabs = Except.ok master)
    (hcols : master.colNames = rawNames)
    (hshape : ∀ r ∈ master.rows, isRawShape r = true)
    (hbad : ∃ r ∈ master.rows, parseInt (pyStrip (removeClass (rawIntensity r))) = none) :
    ∃ e, build_table primary dir = Except.error e ∧
      mainRun primary dir fs = (fs, Except.error e) := by
  obtain ⟨cn, rws⟩ := master
  have hcn : cn = rawNames := hcols
  subst hcn
  have hbt := build_table_eq_transform primary dir tabs _ hread hstack
  rcases transform_error_of_shape rws hshape hbad with ⟨e, he⟩
  refine ⟨e, ?_, ?_⟩
  · rw [hbt]
    exact he
  · exact mainRun_of_error primary dir fs e (by rw [hbt]; exact he)

/-- Primary parse result whose stacked row reduces to the empty digit string. -/
def primaryBB : String → Except Unit (List (List Value)) := fun _ =>
  Except.ok [[Value.vStr "bb", Value.vFloat ⟨1, 0⟩, Value.vStr "Fe", Value.vStr "R"]]

theorem c2_transform_error_aborts_run_witness :
    ∃ e, build_table primaryBB [("a.txt", "x")] = Except.error e ∧
      mainRun primaryBB [("a.txt", "x")] ([] : FS) = ([], Except.error e) :=
  c2_transform_error_aborts_run primaryBB [("a.txt", "x")] []
    [⟨rawNames, [[Value.vStr "bb", Value.vFloat ⟨1, 0⟩, Value.vStr "Fe", Value.vStr "R"]]⟩]
    ⟨rawNames, [[Value.vStr "bb", Value.vFloat ⟨1, 0⟩, Value.vStr "Fe", Value.vStr "R"]]⟩
    rfl rfl rfl (by decide) (by decide)

/-- C5: both regexes run on the original raw string independently, so for
the interleaved input `12p34` the `Strength` result is `p` (digits removed
from the original) and the `Intensity` digits concatenate to 1234 (letters
removed from the original); applying the two extractions sequentially
instead would fail to produce any integer. -/
theorem c5_extraction_independent :
    pyStrip (removeDigits "12p34") = "p" ∧
    parseInt (pyStrip (removeClass "12p34")) = some 1234 ∧
    parseInt (pyStrip (removeClass (pyStrip (removeDigits "12p34")))) = none ∧
    transform ⟨rawNames, [[Value.vStr "12p34", Value.vFloat ⟨0, 0⟩, Value.vStr "Fe",
        Value.vStr "R"]]⟩ =
      Except.ok ⟨finalNames, [[Value.vStr "Fe", Value.vFloat ⟨0, 0⟩, Value.vInt 1234,
        Value.vStr "p", Value.vBool true, Value.vStr "R"]]⟩ :=
  ⟨rfl, rfl, rfl, rfl⟩

theorem map_const_eq_replicate {α β : Type} (l : List α) (b : β) :
    l.map (fun _ => b) = List.replicate l.length b := by
  induction l with
  | nil => rfl
  | cons a t ih => simp [List.replicate_succ, ih]

/-- C6: for every input whose transform succeeds, the `On` column of the
output holds boolean `true` in every row; the value never depends on the
row's data. -/
theorem c6_on_column_true (rows : List (List Value)) (t : ATable)
    (hs : ∀ r ∈ rows, isRawShape r = true)
    (hok : transform ⟨rawNames, rows⟩ = Except.ok t) :
    getCol t "On" = Except.ok (List.replicate rows.length (Value.vBool true)) := by
  rw [transform_eq_of_shape rows hs] at hok
  split at hok
  · next ns heq =>
    have hns := intColumn_ok_inv _ _ heq
    subst hns
    have ht := (Except.ok.inj hok).symm
    subst ht
    show Except.ok ((List.zipWith finalRowOf rows
        ((rows.map strippedOf).map (fun s => (parseInt s).getD 0))).map
          (fun r => r.getD 4 (Value.vStr ""))) = _
    rw [List.map_map, zipWith_map_right_same, List.map_map]
    have hconst : rows.map ((fun r => r.getD 4 (Value.vStr "")) ∘
        fun a => finalRowOf a (((fun s => (parseInt s).getD 0) ∘ strippedOf) a)) =
        rows.map (fun _ => Value.vBool true) := rfl
    rw [hconst, map_const_eq_replicate]
  · next e heq => exact absurd hok (by simp)

theorem c6_on_column_true_witness :
    getCol sampleOut "On" = Except.ok (List.replicate 1 (Value.vBool true)) :=
  c6_on_column_true [sampleRow] sampleOut (by decide) rfl

/-- C4: stacking a non-empty list of tables that agree on column names
succeeds and yields exactly the concatenation of the per-table row lists in
list order — so the merged row count is the sum of the per-table counts and
no row is lost, duplicated, deduplicated or reordered. -/
theorem c4_vstack_concat (t0 : ATable) (rest : List ATable)
    (hsch : ∀ u ∈ rest, u.colNames = t0.colNames) :
    vstack (t0 :: rest) =
      Except.ok ⟨t0.colNames, ((t0 :: rest).map ATable.rows).flatten⟩ ∧
    (((t0 :: rest).map ATable.rows).flatten).length =
      ((t0 :: rest).map (fun u => u.rows.length)).sum := by
  constructor
  · have hall : rest.all (fun u => u.colNames == t0.colNames) = true := by
      rw [List.all_eq_true]
      intro u hu
      exact beq_iff_eq.mpr (hsch u hu)
    unfold vstack
    show (if (rest.all fun u => u.colNames == t0.colNames) = true then
        Except.ok (ATable.mk t0.colNames (((t0 :: rest).map ATable.rows).flatten))
      else Except.error Err.schemaMismatch) =
      Except.ok (ATable.mk t0.colNames (((t0 :: rest).map ATable.rows).flatten))
    rw [hall]
    rfl
  · rw [List.length_flatten, List.map_map]
    rfl

/-- Five one-cell rows under the raw schema. -/
def tableA : ATable :=
  ⟨rawNames, [[Value.vInt 1], [Value.vInt 2], [Value.vInt 3], [Value.vInt 4], [Value.vInt 5]]⟩

/-- Seven one-cell rows under the raw schema. -/
def tableB : ATable :=
  ⟨rawNames, [[Value.vInt 6], [Value.vInt 7], [Value.vInt 8], [Value.vInt 9],
    [Value.vInt 10], [Value.vInt 11], [Value.vInt 12]]⟩

theorem c4_vstack_concat_witness :
    vstack [tableA, tableB] =
      Except.ok ⟨tableA.colNames, (([tableA, tableB]).map ATable.rows).flatten⟩ ∧
    ((([tableA, tableB]).map ATable.rows).flatten).length = 12 ∧
    (([tableA, tableB]).map ATable.rows).flatten = tableA.rows ++ tableB.rows :=
  ⟨(c4_vstack_concat tableA [tableB] (by decide)).1, by decide, by decide⟩

theorem selectCols_ok_colNames (u : ATable) (ns : List String) (t : ATable)
    (h : selectCols u ns = Except.ok t) : t.colNames = ns := by
  unfold selectCols at h
  split at h
  · rw [← Except.ok.inj h]
  · exact absurd h (by simp)

theorem transform_ok_colNames (u : ATable) (t : ATable)
    (h : transform u = Except.ok t) : t.colNames = finalNames := by
  unfold transform at h
  dsimp only at h
  split at h
  · exact absurd h (by simp)
  · split at h
    · exact absurd h (by simp)
    · split at h
      · exact absurd h (by simp)
      · split at h
        · exact absurd h (by simp)
        · split at h
          · exact absurd h (by simp)
          · exact selectCols_ok_colNames _ _ _ h

/-- C7: every table `build_table` returns has columns exactly
`Element, Wavelength, Intensity, Strength, On, Reference` in that order,
and the CSV the writer produces for it starts with exactly that header
line. -/
theorem c7_final_column_order {ε : Type} (primary : String → Except ε (List (List Value)))
    (dir : List (String × String)) (t : ATable)
    (hok : build_table primary dir = Except.ok t) :
    t.colNames = finalNames ∧
    (table_write t).getD 0 "" = "Element,Wavelength,Intensity,Strength,On,Reference" := by
  rcases build_table_ok_inv primary dir t hok with ⟨tabs, master, _, _, htr⟩
  have hcols := transform_ok_colNames master t htr
  refine ⟨hcols, ?_⟩
  have hhead : (table_write t).getD 0 "" =
      String.intercalate "," (t.colNames.map csvField) := rfl
  rw [hhead, hcols]
  rfl

/-- A primary parser standing for a successful `Table.read`. -/
def primary10p : String → Except Unit (List (List Value)) := fun _ =>
  Except.ok [sampleRow]

theorem c7_final_column_order_witness :
    sampleOut.colNames = finalNames ∧
    (table_write sampleOut).getD 0 "" =
      "Element,Wavelength,Intensity,Strength,On,Reference" :=
  c7_final_column_order primary10p [("a.txt", "x")] sampleOut rfl

theorem readFS_setFile (fs : FS) (p c : String) :
    readFS (setFile fs p c) p = some c := by
  show (((p, c) :: fs.filter (fun q => q.1 != p)).find? (fun q => q.1 == p)).map
      (fun q => q.2) = some c
  rw [List.find?_cons_of_pos _ (by simp)]
  rfl

/-- C8: when a file already exists at the output path, a successful run
overwrites it without raising: `main` still returns success and the path
afterwards holds the CSV serialization of the new table.  The on-disk
semantics of the astropy writer is the spec-modelled `save_table`. -/
theorem c8_overwrite_output {ε : Type} (primary : String → Except ε (List (List Value)))
    (dir : List (String × String)) (fs : FS) (t : ATable) (old : String)
    (hok : build_table primary dir = Except.ok t)
    (hex : readFS fs outPath = some old) :
    (mainRun primary dir fs).2 = Except.ok () ∧
    readFS (mainRun primary dir fs).1 outPath = some (render_csv t) := by
  rw [mainRun_of_ok primary dir fs t hok]
  exact ⟨rfl, readFS_setFile fs outPath (render_csv t)⟩

theorem c8_overwrite_output_witness :
    (mainRun primary10p [("a.txt", "x")] [(outPath, "old contents")]).2 =
      Except.ok () ∧
    readFS (mainRun primary10p [("a.txt", "x")] [(outPath, "old contents")]).1 outPath =
      some (render_csv sampleOut) :=
  c8_overwrite_output primary10p [("a.txt", "x")] [(outPath, "old contents")]
    sampleOut "old contents" rfl rfl

/-- C9 counterexample: on an empty input directory no error at all is
raised before the merge — discovery returns an empty file list and the
per-file parse stage completes with an empty table list — and the run's
error is exactly the one `vstack`, the merger itself, raises on its empty
argument.  There is no discovery-stage failure, contradicting the claim
that a DiscoveryError is raised before the merge stage runs. -/
theorem c9_counterexample :
    glob_txt ([] : List (String × String)) = [] ∧
    read_stage (fun _ => Except.error ()) ([] : List (String × String)) = Except.ok [] ∧
    vstack ([] : List ATable) = Except.error Err.noValuesToStack ∧
    build_table (fun _ => Except.error ()) ([] : List (String × String)) =
      Except.error Err.noValuesToStack :=
  ⟨rfl, rfl, rfl, rfl⟩

/-- C9 amended: for an input directory with no `.txt` files, discovery
succeeds with an empty list, the per-file parse stage succeeds vacuously,
and the run then fails inside the merge stage with the empty-input error
raised by `vstack`; the transform and write stages never run and no output
file is written. -/
theorem c9_empty_dir_fails_at_merge {ε : Type}
    (primary : String → Except ε (List (List Value)))
    (dir : List (String × String)) (fs : FS)
    (hempty : glob_txt dir = []) :
    read_stage primary dir = Except.ok [] ∧
    build_table primary dir = Except.error Err.noValuesToStack ∧
    mainRun primary dir fs = (fs, Except.error Err.noValuesToStack) := by
  have hread : read_stage primary dir = Except.ok [] := by
    unfold read_stage
    rw [hempty]
    rfl
  have hbt : build_table primary dir = Except.error Err.noValuesToStack := by
    unfold build_table
    rw [hread]
    rfl
  exact ⟨hread, hbt, mainRun_of_error primary dir fs Err.noValuesToStack hbt⟩

theorem c9_empty_dir_fails_at_merge_witness :
    read_stage (fun _ => Except.error ()) [("notes.dat", "y")] = Except.ok [] ∧
    build_table (fun _ => Except.error ()) [("notes.dat", "y")] =
      Except.error Err.noValuesToStack ∧
    mainRun (fun _ => Except.error ()) [("notes.dat", "y")] ([] : FS) =
      ([], Except.error Err.noValuesToStack) :=
  c9_empty_dir_fails_at_merge (fun _ => Except.error ()) [("notes.dat", "y")] [] rfl

theorem exceptMapM_ok_inv {α β : Type} (f : α → Except Err β) (l : List α) (bs : List β)
    (h : l.mapM f = Except.ok bs) :
    bs.length = l.length ∧
    ∀ i, i < l.length → ∀ d d', f (l.getD i d) = Except.ok (bs.getD i d') := by
  induction l generalizing bs with
  | nil =>
    have hb : ([] : List β) = bs := Except.ok.inj h
    subst hb
    exact ⟨rfl, fun i hi => absurd hi (by simp)⟩
  | cons a tl ih =>
    rw [exceptMapM_cons] at h
    cases hfa : f a with
    | error e =>
      rw [hfa] at h
      exact absurd h (by simp [Except.bind])
    | ok b =>
      rw [hfa] at h
      cases hmt : tl.mapM f with
      | error e =>
        rw [hmt] at h
        exact absurd h (by simp [Except.bind])
      | ok bt =>
        rw [hmt] at h
        have hb : b :: bt = bs := Except.ok.inj h
        subst hb
        rcases ih bt hmt with ⟨hlen, hidx⟩
        refine ⟨by simp [hlen], ?_⟩
        intro i hi d d'
        cases i with
        | zero => exact hfa
        | succ j => exact hidx j (by simpa using hi) d d'

theorem table_dtype_ok_inv (rows : List (List String)) (t : ATable)
    (h : table_dtype rows = Except.ok t) :
    t.colNames = rawNames ∧ t.rows.length = rows.length ∧
    ∀ i, i < rows.length →
      ∃ q, parseFloat ((rows.getD i []).getD 1 "") = some q ∧
        t.rows.getD i [] =
          [Value.vStr (strTake ((rows.getD i []).getD 0 "") 10), Value.vFloat q,
           Value.vStr (strTake ((rows.getD i []).getD 2 "") 15),
           Value.vStr (strTake ((rows.getD i []).getD 3 "") 15)] := by
  unfold table_dtype at h
  split at h
  · next vrows heq =>
    have ht := Except.ok.inj h
    subst ht
    rcases exceptMapM_ok_inv _ rows vrows heq with ⟨hlen, hidx⟩
    refine ⟨rfl, by simpa using hlen, ?_⟩
    intro i hi
    have hf := hidx i hi [] []
    cases hq : parseFloat ((rows.getD i []).getD 1 "") with
    | none =>
      rw [hq] at hf
      exact absurd hf (by simp)
    | some q =>
      rw [hq] at hf
      exact ⟨q, rfl, (Except.ok.inj hf).symm⟩
  · exact absurd h (by simp)

/-- C3: the fixed-width fallback is triggered by the primary parse failing
with an error of any type whatsoever (and only then: a primary success is
used as-is under the four raw names); the fallback slices every retained
line at character offsets 0, 13, 27, 40, 56 — field widths 13, 14, 13, 16
for Intensity, Wavelength, Element, Reference — keeping every field as
text except Wavelength, which is coerced to a floating-point value. -/
theorem c3_fallback_fixed_width {ε : Type} (e : ε) (content : String)
    (rows0 : List (List Value)) (t : ATable)
    (hfb : fixedWidthTable content = Except.ok t) :
    readOne (Except.error e) content = fixedWidthTable content ∧
    readOne (Except.ok rows0 : Except ε (List (List Value))) content =
      Except.ok ⟨rawNames, rows0⟩ ∧
    genfromtxt_fixed content = (dataLines content).map (fun line =>
      [sliceStr line 0 13, sliceStr line 13 27, sliceStr line 27 40,
       sliceStr line 40 56]) ∧
    t.colNames = rawNames ∧
    t.rows.length = (dataLines content).length ∧
    ∀ i, i < (dataLines content).length →
      ∃ q, parseFloat (sliceStr ((dataLines content).getD i "") 13 27) = some q ∧
        t.rows.getD i [] =
          [Value.vStr (strTake (sliceStr ((dataLines content).getD i "") 0 13) 10),
           Value.vFloat q,
           Value.vStr (strTake (sliceStr ((dataLines content).getD i "") 27 40) 15),
           Value.vStr (strTake (sliceStr ((dataLines content).getD i "") 40 56) 15)] := by
  rcases table_dtype_ok_inv (genfromtxt_fixed content) t hfb with ⟨hcols, hlen, hidx⟩
  have hglen : (genfromtxt_fixed content).length = (dataLines content).length := by
    unfold genfromtxt_fixed
    simp
  refine ⟨rfl, rfl, rfl, hcols, by rw [hlen, hglen], ?_⟩
  intro i hi
  have h4 := hidx i (by rw [hglen]; exact hi)
  have hrow : (genfromtxt_fixed content).getD i [] =
      [sliceStr ((dataLines content).getD i "") 0 13,
       sliceStr ((dataLines content).getD i "") 13 27,
       sliceStr ((dataLines content).getD i "") 27 40,
       sliceStr ((dataLines content).getD i "") 40 56] := by
    unfold genfromtxt_fixed
    exact getD_map_lt _ _ i "" [] hi
  rw [hrow] at h4
  exact h4

/-- A 56-character fixed-width line: 13-wide Intensity `3`, 14-wide
Wavelength `500.123`, 13-wide Element `Fe II`, 16-wide Reference
`Smith 1990`. -/
def line56 : String := "3            500.123       Fe II        Smith 1990      "

theorem c3_fallback_fixed_width_witness :
    readOne (Except.error ()) line56 = fixedWidthTable line56 ∧
    ∃ q, parseFloat (sliceStr ((dataLines line56).getD 0 "") 13 27) = some q ∧
      (ATable.mk rawNames [[Value.vStr "3         ", Value.vFloat ⟨500123, -3⟩,
        Value.vStr "Fe II        ", Value.vStr "Smith 1990     "]]).rows.getD 0 [] =
        [Value.vStr (strTake (sliceStr ((dataLines line56).getD 0 "") 0 13) 10),
         Value.vFloat q,
         Value.vStr (strTake (sliceStr ((dataLines line56).getD 0 "") 27 40) 15),
         Value.vStr (strTake (sliceStr ((dataLines line56).getD 0 "") 40 56) 15)] :=
  ⟨(c3_fallback_fixed_width () line56 []
      (ATable.mk rawNames [[Value.vStr "3         ", Value.vFloat ⟨500123, -3⟩,
        Value.vStr "Fe II        ", Value.vStr "Smith 1990     "]]) rfl).1,
   (c3_fallback_fixed_width () line56 []
      (ATable.mk rawNames [[Value.vStr "3         ", Value.vFloat ⟨500123, -3⟩,
        Value.vStr "Fe II        ", Value.vStr "Smith 1990     "]]) rfl).2.2.2.2.2 0
      (by decide)⟩

/-- C10 counterexample: a 13-character Element field filling its whole
slice passes through `table_dtype` unchanged — the Element dtype `S15` is
15 characters, wider than the 13-character Element slice, so no Element
character is ever lost; this contradicts the claim that the declared
dtypes are narrower than the sliced column widths for Element.  (The
Intensity and Reference cells of the same row do show the real
truncations, 13 to 10 and 16 to 15.) -/
theorem c10_counterexample :
    table_dtype [["INTENSITY0123", "500.123       ", "ABCDEFGHIJKLM",
        "Smith 1990 16ch "]] =
      Except.ok ⟨rawNames, [[Value.vStr "INTENSITY0", Value.vFloat ⟨500123, -3⟩,
        Value.vStr "ABCDEFGHIJKLM", Value.vStr "Smith 1990 16ch"]]⟩ ∧
    "ABCDEFGHIJKLM".length = 13 ∧ "INTENSITY0123".length = 13 ∧
    "Smith 1990 16ch ".length = 16 :=
  ⟨rfl, rfl, rfl, rfl⟩

/-- C10 amended: in the fixed-width fallback, the declared dtypes truncate
the Intensity text to 10 characters (slice width 13) and the Reference
text to 15 characters (slice width 16, so a full Reference field loses
exactly its final character), while the Element dtype `S15` is wider than
the 13-character Element slice, so Element values are never truncated. -/
theorem c10_dtype_truncation (s1 s2 s3 s4 : String) (q : PyFloat)
    (h1 : s1.data.length = 13) (h2 : s2.data.length = 14) (h3 : s3.data.length = 13)
    (h4 : s4.data.length = 16) (hq : parseFloat s2 = some q) :
    sliceStr ⟨s1.data ++ (s2.data ++ (s3.data ++ s4.data))⟩ 0 13 = s1 ∧
    sliceStr ⟨s1.data ++ (s2.data ++ (s3.data ++ s4.data))⟩ 13 27 = s2 ∧
    sliceStr ⟨s1.data ++ (s2.data ++ (s3.data ++ s4.data))⟩ 27 40 = s3 ∧
    sliceStr ⟨s1.data ++ (s2.data ++ (s3.data ++ s4.data))⟩ 40 56 = s4 ∧
    table_dtype [[s1, s2, s3, s4]] =
      Except.ok ⟨rawNames, [[Value.vStr (strTake s1 10), Value.vFloat q,
        Value.vStr s3, Value.vStr ⟨s4.data.dropLast⟩]]⟩ ∧
    strTake s3 15 = s3 := by
  have hd13 : (s1.data ++ (s2.data ++ (s3.data ++ s4.data))).drop 13 =
      s2.data ++ (s3.data ++ s4.data) := List.drop_left' h1
  have hd27 : (s1.data ++ (s2.data ++ (s3.data ++ s4.data))).drop 27 =
      s3.data ++ s4.data := by
    have hdd : ((s1.data ++ (s2.data ++ (s3.data ++ s4.data))).drop 13).drop 14 =
        (s1.data ++ (s2.data ++ (s3.data ++ s4.data))).drop 27 := by
      rw [List.drop_drop]
    rw [← hdd, hd13]
    exact List.drop_left' h2
  have hd40 : (s1.data ++ (s2.data ++ (s3.data ++ s4.data))).drop 40 = s4.data := by
    have hdd : ((s1.data ++ (s2.data ++ (s3.data ++ s4.data))).drop 27).drop 13 =
        (s1.data ++ (s2.data ++ (s3.data ++ s4.data))).drop 40 := by
      rw [List.drop_drop]
    rw [← hdd, hd27]
    exact List.drop_left' h3
  have hs3 : strTake s3 15 = s3 := by
    show (⟨s3.data.take 15⟩ : String) = s3
    rw [List.take_of_length_le (by omega)]
  have hs4 : strTake s4 15 = (⟨s4.data.dropLast⟩ : String) := by
    show (⟨s4.data.take 15⟩ : String) = (⟨s4.data.dropLast⟩ : String)
    rw [List.dropLast_eq_take, h4]
  refine ⟨?_, ?_, ?_, ?_, ?_, hs3⟩
  · show (⟨(s1.data ++ (s2.data ++ (s3.data ++ s4.data))).take 13⟩ : String) = s1
    rw [List.take_left' h1]
  · show (⟨((s1.data ++ (s2.data ++ (s3.data ++ s4.data))).drop 13).take 14⟩ : String) = s2
    rw [hd13, List.take_left' h2]
  · show (⟨((s1.data ++ (s2.data ++ (s3.data ++ s4.data))).drop 27).take 13⟩ : String) = s3
    rw [hd27, List.take_left' h3]
  · show (⟨((s1.data ++ (s2.data ++ (s3.data ++ s4.data))).drop 40).take 16⟩ : String) = s4
    rw [hd40, List.take_of_length_le (by omega)]
  · have hm : ([[s1, s2, s3, s4]] : List (List String)).mapM (fun r =>
        match parseFloat (r.getD 1 "") with
        | some q =>
          Except.ok [Value.vStr (strTake (r.getD 0 "") 10), Value.vFloat q,
                     Value.vStr (strTake (r.getD 2 "") 15), Value.vStr (strTake (r.getD 3 "") 15)]
        | none => Except.error (Err.badFloat (r.getD 1 ""))) =
        Except.ok [[Value.vStr (strTake s1 10), Value.vFloat q,
          Value.vStr (strTake s3 15), Value.vStr (strTake s4 15)]] := by
      rw [exceptMapM_cons]
      show ((match parseFloat s2 with
        | some q =>
          Except.ok [Value.vStr (strTake s1 10), Value.vFloat q,
                     Value.vStr (strTake s3 15), Value.vStr (strTake s4 15)]
        | none => Except.error (Err.badFloat s2)).bind
          (fun b => Except.ok [b])) = _
      rw [hq]
      rfl
    unfold table_dtype
    rw [hm]
    show Except.ok (ATable.mk rawNames [[Value.vStr (strTake s1 10), Value.vFloat q,
        Value.vStr (strTake s3 15), Value.vStr (strTake s4 15)]]) = _
    rw [hs3, hs4]

/-- A 13-character Intensity field. -/
def refS1 : String := "INTENSITY0123"

/-- A 14-character Wavelength field. -/
def refS2 : String := "500.123       "

/-- A 13-character Element field occupying its whole slice. -/
def refS3 : String := "ABCDEFGHIJKLM"

/-- A 16-character Reference field occupying its whole slice. -/
def refS4 : String := "Smith 1990 16ch "

theorem c10_dtype_truncation_witness :
    sliceStr ⟨refS1.data ++ (refS2.data ++ (refS3.data ++ refS4.data))⟩ 0 13 = refS1 ∧
    sliceStr ⟨refS1.data ++ (refS2.data ++ (refS3.data ++ refS4.data))⟩ 13 27 = refS2 ∧
    sliceStr ⟨refS1.data ++ (refS2.data ++ (refS3.data ++ refS4.data))⟩ 27 40 = refS3 ∧
    sliceStr ⟨refS1.data ++ (refS2.data ++ (refS3.data ++ refS4.data))⟩ 40 56 = refS4 ∧
    table_dtype [[refS1, refS2, refS3, refS4]] =
      Except.ok ⟨rawNames, [[Value.vStr (strTake refS1 10), Value.vFloat ⟨500123, -3⟩,
        Value.vStr refS3, Value.vStr ⟨refS4.data.dropLast⟩]]⟩ ∧
    strTake refS3 15 = refS3 :=
  c10_dtype_truncation refS1 refS2 refS3 refS4 ⟨500123, -3⟩ rfl rfl rfl rfl rfl
